import Mathlib

/- Shallow embedding of the cli_pong repository (src/state.rs).
   Floating point values (f64) are modelled by rationals, i.e. exact real
   arithmetic; a second model that keeps the IEEE special values
   (infinities and NaN) is given further below for the behaviour of the
   unguarded division when the horizontal velocity is exactly zero.
   usize arithmetic is modelled as wrapping arithmetic modulo 2^64, and
   the float-to-usize cast saturates, as the Rust cast does. -/

set_option autoImplicit false
set_option maxRecDepth 40000

namespace CliPong

/-- Largest usize value (64-bit target). -/
def USIZE_MAX : ℕ := 2 ^ 64 - 1

/-- Wrapping usize subtraction, the release-mode semantics of a - b on usize. -/
def usizeSub (a b : ℕ) : ℕ := (((a : ℤ) - (b : ℤ)) % (2 ^ 64 : ℤ)).toNat

/-- Wrapping usize addition, the release-mode semantics of a + b on usize. -/
def usizeAdd (a b : ℕ) : ℕ := (a + b) % 2 ^ 64

/-- f64::round - round to nearest integer, ties away from zero. -/
def roundHalfAway (q : ℚ) : ℤ := if 0 ≤ q then ⌊q + 1/2⌋ else ⌈q - 1/2⌉

/-- The saturating cast `x as usize` applied to an integral f64 value:
    negative values go to 0, values above usize::MAX go to usize::MAX. -/
def f64AsUsize (z : ℤ) : ℕ := min z.toNat USIZE_MAX

/-- Defines how much the velocity of the ball should increase with each frame
    (`const VELOCITY_INCREASE: f64 = 1.003`). -/
def VELOCITY_INCREASE : ℚ := 1.003

/-- `struct Position2D { x: f64, y: f64 }` -/
structure Position2D where
  x : ℚ
  y : ℚ
deriving DecidableEq

/-- `struct DiscretePosition2D { x: usize, y: usize }` -/
structure DiscretePosition2D where
  x : ℕ
  y : ℕ
deriving DecidableEq

/-- `Position2D::to_discrete`: round both coordinates and cast to usize. -/
def Position2D.to_discrete (p : Position2D) : DiscretePosition2D :=
  ⟨f64AsUsize (roundHalfAway p.x), f64AsUsize (roundHalfAway p.y)⟩

/-- `struct Velocity2D { vx: f64, vy: f64 }` -/
structure Velocity2D where
  vx : ℚ
  vy : ℚ
deriving DecidableEq

/-- The crossterm key codes the game uses. -/
inductive KeyCode where
  | Char (c : Char)
  | Up
  | Down
deriving DecidableEq

/-- The per-tick snapshot of currently held keys.  Only key membership is
    ever queried by the state code, so the HashMap of key events is
    modelled as the list of held key codes. -/
abbrev PressedKeys : Type := List KeyCode

/-- `f64::min` restricted to finite values: the smaller argument. -/
def fmin (a b : ℚ) : ℚ := if a ≤ b then a else b

/-- `f64::max` restricted to finite values: the larger argument. -/
def fmax (a b : ℚ) : ℚ := if b ≤ a then a else b

/-- `struct Player` from src/state.rs. -/
structure Player where
  extend_up : ℕ
  extend_down : ℕ
  key_up : KeyCode
  key_down : KeyCode
  position : Position2D
  velocity : Velocity2D
deriving DecidableEq

/-- `Player::new` - the default velocity is `(0., 12.0)`. -/
def Player.new (extend_up extend_down : ℕ) (key_up key_down : KeyCode)
    (position : Position2D) : Player :=
  { extend_up := extend_up, extend_down := extend_down, key_up := key_up,
    key_down := key_down, position := position, velocity := ⟨0, 12⟩ }

/-- `Player::update_position`: apply the held movement keys, then clamp the
    y coordinate with `y.min(max_height - extend_up).max(0.0 + extend_down)`.
    `dt` is `dt.as_secs_f64()`, a non-negative real. -/
def Player.update_position (p : Player) (max_height : ℚ) (pressed_keys : PressedKeys)
    (dt : ℚ) : Player :=
  let pos1 : Position2D :=
    if p.key_up ∈ pressed_keys then
      ⟨p.position.x + p.velocity.vx * dt, p.position.y + p.velocity.vy * dt⟩
    else p.position
  let pos2 : Position2D :=
    if p.key_down ∈ pressed_keys then
      ⟨pos1.x - p.velocity.vx * dt, pos1.y - p.velocity.vy * dt⟩
    else pos1
  { p with position := ⟨pos2.x, fmax (fmin pos2.y (max_height - p.extend_up)) (0 + p.extend_down)⟩ }

/-- `Player::collides_with`: compare discrete cells; the usize subtraction
    and addition wrap on overflow. -/
def Player.collides_with (p : Player) (position : Position2D) : Bool :=
  let discrete_position := position.to_discrete
  let own_discrete_position := p.position.to_discrete
  decide (usizeSub own_discrete_position.y p.extend_down ≤ discrete_position.y ∧
    discrete_position.y ≤ usizeAdd own_discrete_position.y p.extend_up ∧
    own_discrete_position.x = discrete_position.x)

/-- `struct Ball` from src/state.rs. -/
structure Ball where
  position : Position2D
  velocity : Velocity2D
deriving DecidableEq

/-- Oracle for the random number generator: the coin flip of
    `random::<bool>()` together with the values the three `gen_range`
    calls would produce.  `Valid` states that each draw lies in the
    half-open range requested from the generator. -/
structure RandStream where
  coin : Bool
  pos_draw : ℚ
  neg_draw : ℚ
  vy_draw : ℚ
deriving DecidableEq

/-- The draws of a random stream lie in the requested half-open ranges. -/
def RandStream.Valid (r : RandStream) : Prop :=
  (10 ≤ r.pos_draw ∧ r.pos_draw < 20) ∧
  (-20 ≤ r.neg_draw ∧ r.neg_draw < -10) ∧
  (-6 ≤ r.vy_draw ∧ r.vy_draw < 6)

instance (r : RandStream) : Decidable r.Valid := by
  unfold RandStream.Valid; infer_instance

/-- `Ball::random_ball_velocity`: vx is drawn from `10.0..20.0` or from
    `-20.0..-10.0` depending on a coin flip, vy from `-6.0..6.0`. -/
def Ball.random_ball_velocity (r : RandStream) : Velocity2D :=
  ⟨if r.coin then r.pos_draw else r.neg_draw, r.vy_draw⟩

/-- `Ball::new`. -/
def Ball.new (position : Position2D) (r : RandStream) : Ball :=
  ⟨position, Ball.random_ball_velocity r⟩

/-- `Ball::calc_next_position`. -/
def Ball.calc_next_position (b : Ball) (dt : ℚ) : Position2D :=
  ⟨b.position.x + b.velocity.vx * dt, b.position.y + b.velocity.vy * dt⟩

/-- `Ball::update_if_collision_with_wall`: invert vy if the predicted next
    position has `y <= 0.0 || y >= max_height`. -/
def Ball.update_if_collision_with_wall (b : Ball) (max_height : ℚ) (dt : ℚ) : Ball :=
  let next_position := b.calc_next_position dt
  if next_position.y ≤ 0 ∨ max_height ≤ next_position.y then
    { b with velocity := ⟨b.velocity.vx, -b.velocity.vy⟩ }
  else b

/-- `Ball::calculate_collision_point_with_player`.  In the rational model
    division by zero yields 0; the IEEE behaviour at vx = 0 is treated in
    the extended model below. -/
def Ball.calculate_collision_point_with_player (b : Ball) (player : Player) : Position2D :=
  let collision_r := (player.position.x - b.position.x) / b.velocity.vx
  ⟨b.position.x + b.velocity.vx * collision_r, b.position.y + b.velocity.vy * collision_r⟩

/-- `Ball::update_if_collision_with_player1`: invert vx if the collision
    point satisfies `point.x >= next.x` and player1 collides with it. -/
def Ball.update_if_collision_with_player1 (b : Ball) (player1 : Player) (dt : ℚ) : Ball :=
  let possible_collision_point := b.calculate_collision_point_with_player player1
  let next_position := b.calc_next_position dt
  if next_position.x ≤ possible_collision_point.x ∧
      player1.collides_with possible_collision_point then
    { b with velocity := ⟨-b.velocity.vx, b.velocity.vy⟩ }
  else b

/-- `Ball::update_if_collision_with_player2`: invert vx if the collision
    point satisfies `point.x <= next.x` and player2 collides with it. -/
def Ball.update_if_collision_with_player2 (b : Ball) (player2 : Player) (dt : ℚ) : Ball :=
  let possible_collision_point := b.calculate_collision_point_with_player player2
  let next_position := b.calc_next_position dt
  if possible_collision_point.x ≤ next_position.x ∧
      player2.collides_with possible_collision_point then
    { b with velocity := ⟨-b.velocity.vx, b.velocity.vy⟩ }
  else b

/-- `Ball::update_position`: wall check, then the paddle check selected by
    the sign of vx, then position integration, then velocity escalation. -/
def Ball.update_position (b : Ball) (max_height : ℚ) (player1 player2 : Player)
    (dt : ℚ) : Ball :=
  let b1 := b.update_if_collision_with_wall max_height dt
  let b2 :=
    if b1.velocity.vx ≤ 0 then b1.update_if_collision_with_player1 player1 dt
    else b1.update_if_collision_with_player2 player2 dt
  let b3 : Ball := ⟨b2.calc_next_position dt, b2.velocity⟩
  ⟨b3.position, ⟨b3.velocity.vx * VELOCITY_INCREASE, b3.velocity.vy * VELOCITY_INCREASE⟩⟩

/-- `struct GameState` from src/state.rs. -/
structure GameState where
  width : ℕ
  height : ℕ
  player1_score : ℕ
  player2_score : ℕ
  player1 : Player
  player2 : Player
  ball : Ball
deriving DecidableEq

/-- `GameState::initial_player1_position` - `(0, height / 2)`. -/
def GameState.initial_player1_position (_width height : ℕ) : Position2D :=
  ⟨0, (height : ℚ) / 2⟩

/-- `GameState::initial_player2_position` - `(width, height / 2)`. -/
def GameState.initial_player2_position (width height : ℕ) : Position2D :=
  ⟨(width : ℚ), (height : ℚ) / 2⟩

/-- `GameState::initial_ball_position` - `(width / 2, height / 2)`. -/
def GameState.initial_ball_position (width height : ℕ) : Position2D :=
  ⟨(width : ℚ) / 2, (height : ℚ) / 2⟩

/-- `GameState::new`. -/
def GameState.new (width height extend_player_height_up extend_player_height_down : ℕ)
    (r : RandStream) : GameState :=
  { width := width, height := height, player1_score := 0, player2_score := 0,
    player1 := Player.new extend_player_height_up extend_player_height_down
      (KeyCode.Char 'w') (KeyCode.Char 's')
      (GameState.initial_player1_position width height),
    player2 := Player.new extend_player_height_up extend_player_height_down
      KeyCode.Up KeyCode.Down
      (GameState.initial_player2_position width height),
    ball := Ball.new (GameState.initial_ball_position width height) r }

/-- `GameState::reset_ball_and_players`: put both paddles and the ball back
    to the initial layout and draw a fresh random ball velocity. -/
def GameState.reset_ball_and_players (g : GameState) (r : RandStream) : GameState :=
  { g with
    player1 := { g.player1 with
      position := GameState.initial_player1_position g.width g.height },
    player2 := { g.player2 with
      position := GameState.initial_player2_position g.width g.height },
    ball := ⟨GameState.initial_ball_position g.width g.height,
      Ball.random_ball_velocity r⟩ }

/-- `GameState::update_score`: player2 scores if `vx <= 0` and the ball is
    left of player1, else player1 scores if `vx > 0` and the ball is right
    of player2; each score triggers a reset. -/
def GameState.update_score (g : GameState) (r : RandStream) : GameState :=
  if g.ball.velocity.vx ≤ 0 ∧ g.ball.position.x < g.player1.position.x then
    ({ g with player2_score := g.player2_score + 1 }).reset_ball_and_players r
  else if 0 < g.ball.velocity.vx ∧ g.player2.position.x < g.ball.position.x then
    ({ g with player1_score := g.player1_score + 1 }).reset_ball_and_players r
  else g

/-- `GameState::update`: manual reset on the r key, otherwise update both
    paddles, then the ball against the moved paddles, then the score. -/
def GameState.update (g : GameState) (pressed_keys : PressedKeys) (dt : ℚ)
    (r : RandStream) : GameState :=
  if KeyCode.Char 'r' ∈ pressed_keys then g.reset_ball_and_players r
  else
    let p1 := g.player1.update_position (g.height : ℚ) pressed_keys dt
    let p2 := g.player2.update_position (g.height : ℚ) pressed_keys dt
    let b := g.ball.update_position (g.height : ℚ) p1 p2 dt
    GameState.update_score { g with player1 := p1, player2 := p2, ball := b } r

/- ----------------------------------------------------------------------
   Extended model: f64 with the IEEE special values.  Finite arithmetic is
   kept exact (rationals); the infinities and NaN follow the IEEE rules,
   which is what the claim about the unguarded division by a zero
   horizontal velocity is about.  Only the functions that participate in
   the paddle collision path of `Ball::update_position` are reproduced.
   ---------------------------------------------------------------------- -/

/-- An f64 value: a finite number, one of the two infinities, or NaN. -/
inductive EF where
  | num (q : ℚ)
  | pinf
  | ninf
  | nan
deriving DecidableEq

namespace EF

/-- IEEE negation. -/
def neg : EF → EF
  | num q => num (-q)
  | pinf => ninf
  | ninf => pinf
  | nan => nan

/-- IEEE addition (finite addition kept exact). -/
def add : EF → EF → EF
  | nan, _ => nan
  | _, nan => nan
  | num a, num b => num (a + b)
  | num _, pinf => pinf
  | pinf, num _ => pinf
  | num _, ninf => ninf
  | ninf, num _ => ninf
  | pinf, pinf => pinf
  | ninf, ninf => ninf
  | pinf, ninf => nan
  | ninf, pinf => nan

/-- IEEE subtraction. -/
def sub (a b : EF) : EF := add a (neg b)

/-- IEEE multiplication (finite multiplication kept exact);
    zero times an infinity is NaN. -/
def mul : EF → EF → EF
  | nan, _ => nan
  | _, nan => nan
  | num a, num b => num (a * b)
  | num a, pinf => if a = 0 then nan else if 0 < a then pinf else ninf
  | pinf, num a => if a = 0 then nan else if 0 < a then pinf else ninf
  | num a, ninf => if a = 0 then nan else if 0 < a then ninf else pinf
  | ninf, num a => if a = 0 then nan else if 0 < a then ninf else pinf
  | pinf, pinf => pinf
  | ninf, ninf => pinf
  | pinf, ninf => ninf
  | ninf, pinf => ninf

/-- IEEE division (finite division kept exact); a nonzero finite number
    divided by zero is a signed infinity, zero divided by zero is NaN.
    The model has a single unsigned zero, treated as IEEE +0. -/
def div : EF → EF → EF
  | nan, _ => nan
  | _, nan => nan
  | num a, num b =>
      if b = 0 then (if a = 0 then nan else if 0 < a then pinf else ninf)
      else num (a / b)
  | num _, pinf => num 0
  | num _, ninf => num 0
  | pinf, num b => if 0 ≤ b then pinf else ninf
  | ninf, num b => if 0 ≤ b then ninf else pinf
  | pinf, pinf => nan
  | pinf, ninf => nan
  | ninf, pinf => nan
  | ninf, ninf => nan

/-- IEEE `<=`: every comparison involving NaN is false. -/
def le : EF → EF → Bool
  | nan, _ => false
  | _, nan => false
  | ninf, _ => true
  | _, pinf => true
  | pinf, _ => false
  | num a, num b => decide (a ≤ b)
  | num _, ninf => false

/-- Round to usize as `Position2D::to_discrete` does: NaN casts to 0,
    negative infinity saturates to 0, positive infinity to usize::MAX. -/
def roundAsUsize : EF → ℕ
  | num q => f64AsUsize (roundHalfAway q)
  | pinf => USIZE_MAX
  | ninf => 0
  | nan => 0

end EF

/-- A position with IEEE f64 coordinates. -/
structure EFPosition where
  x : EF
  y : EF
deriving DecidableEq

/-- `Position2D::to_discrete` over IEEE values. -/
def EFPosition.to_discrete (p : EFPosition) : DiscretePosition2D :=
  ⟨p.x.roundAsUsize, p.y.roundAsUsize⟩

/-- A velocity with IEEE f64 components. -/
structure EFVelocity where
  vx : EF
  vy : EF
deriving DecidableEq

/-- The fields of `Player` that its `collides_with` method reads
    (the key bindings and the paddle velocity are not involved in the
    collision path modelled here). -/
structure EFPlayer where
  extend_up : ℕ
  extend_down : ℕ
  position : EFPosition
deriving DecidableEq

/-- `Player::collides_with` over IEEE values. -/
def EFPlayer.collides_with (p : EFPlayer) (position : EFPosition) : Bool :=
  let discrete_position := position.to_discrete
  let own_discrete_position := p.position.to_discrete
  decide (usizeSub own_discrete_position.y p.extend_down ≤ discrete_position.y ∧
    discrete_position.y ≤ usizeAdd own_discrete_position.y p.extend_up ∧
    own_discrete_position.x = discrete_position.x)

/-- `Ball` over IEEE values. -/
structure EFBall where
  position : EFPosition
  velocity : EFVelocity
deriving DecidableEq

/-- `Ball::calc_next_position` over IEEE values; `dt` is the exact
    non-negative value of `dt.as_secs_f64()`. -/
def EFBall.calc_next_position (b : EFBall) (dt : ℚ) : EFPosition :=
  ⟨EF.add b.position.x (EF.mul b.velocity.vx (EF.num dt)),
   EF.add b.position.y (EF.mul b.velocity.vy (EF.num dt))⟩

/-- `Ball::update_if_collision_with_wall` over IEEE values. -/
def EFBall.update_if_collision_with_wall (b : EFBall) (max_height : ℚ) (dt : ℚ) : EFBall :=
  let next_position := b.calc_next_position dt
  if EF.le next_position.y (EF.num 0) || EF.le (EF.num max_height) next_position.y then
    { b with velocity := ⟨b.velocity.vx, EF.neg b.velocity.vy⟩ }
  else b

/-- `Ball::calculate_collision_point_with_player` over IEEE values - the
    unguarded division lives here. -/
def EFBall.calculate_collision_point_with_player (b : EFBall) (player : EFPlayer) : EFPosition :=
  let collision_r := EF.div (EF.sub player.position.x b.position.x) b.velocity.vx
  ⟨EF.add b.position.x (EF.mul b.velocity.vx collision_r),
   EF.add b.position.y (EF.mul b.velocity.vy collision_r)⟩

/-- `Ball::update_if_collision_with_player1` over IEEE values. -/
def EFBall.update_if_collision_with_player1 (b : EFBall) (player1 : EFPlayer) (dt : ℚ) : EFBall :=
  let possible_collision_point := b.calculate_collision_point_with_player player1
  let next_position := b.calc_next_position dt
  if EF.le next_position.x possible_collision_point.x &&
      player1.collides_with possible_collision_point then
    { b with velocity := ⟨EF.neg b.velocity.vx, b.velocity.vy⟩ }
  else b

/-- `Ball::update_if_collision_with_player2` over IEEE values. -/
def EFBall.update_if_collision_with_player2 (b : EFBall) (player2 : EFPlayer) (dt : ℚ) : EFBall :=
  let possible_collision_point := b.calculate_collision_point_with_player player2
  let next_position := b.calc_next_position dt
  if EF.le possible_collision_point.x next_position.x &&
      player2.collides_with possible_collision_point then
    { b with velocity := ⟨EF.neg b.velocity.vx, b.velocity.vy⟩ }
  else b

/-- `Ball::update_position` over IEEE values. -/
def EFBall.update_position (b : EFBall) (max_height : ℚ) (player1 player2 : EFPlayer)
    (dt : ℚ) : EFBall :=
  let b1 := b.update_if_collision_with_wall max_height dt
  let b2 :=
    if EF.le b1.velocity.vx (EF.num 0) then b1.update_if_collision_with_player1 player1 dt
    else b1.update_if_collision_with_player2 player2 dt
  let b3 : EFBall := ⟨b2.calc_next_position dt, b2.velocity⟩
  ⟨b3.position, ⟨EF.mul b3.velocity.vx (EF.num VELOCITY_INCREASE),
    EF.mul b3.velocity.vy (EF.num VELOCITY_INCREASE)⟩⟩

/- ----------------------------------------------------------------------
   Helper lemmas about the ball update steps.
   ---------------------------------------------------------------------- -/

theorem Ball.wall_eq (b : Ball) (max_height dt : ℚ) :
    b.update_if_collision_with_wall max_height dt =
      ⟨b.position,
        ⟨b.velocity.vx,
          if (b.calc_next_position dt).y ≤ 0 ∨ max_height ≤ (b.calc_next_position dt).y then
            -b.velocity.vy
          else b.velocity.vy⟩⟩ := by
  unfold Ball.update_if_collision_with_wall
  split
  case isTrue h => simp only [if_pos h]
  case isFalse h => simp only [if_neg h]

theorem Ball.hit1_eq (b : Ball) (player1 : Player) (dt : ℚ) :
    b.update_if_collision_with_player1 player1 dt =
      ⟨b.position,
        ⟨if (b.calc_next_position dt).x ≤ (b.calculate_collision_point_with_player player1).x ∧
              player1.collides_with (b.calculate_collision_point_with_player player1) then
            -b.velocity.vx
          else b.velocity.vx,
          b.velocity.vy⟩⟩ := by
  unfold Ball.update_if_collision_with_player1
  split
  case isTrue h => simp only [if_pos h]
  case isFalse h => simp only [if_neg h]

theorem Ball.hit2_eq (b : Ball) (player2 : Player) (dt : ℚ) :
    b.update_if_collision_with_player2 player2 dt =
      ⟨b.position,
        ⟨if (b.calculate_collision_point_with_player player2).x ≤ (b.calc_next_position dt).x ∧
              player2.collides_with (b.calculate_collision_point_with_player player2) then
            -b.velocity.vx
          else b.velocity.vx,
          b.velocity.vy⟩⟩ := by
  unfold Ball.update_if_collision_with_player2
  split
  case isTrue h => simp only [if_pos h]
  case isFalse h => simp only [if_neg h]

/-- C1: in every `Ball::update_position` call exactly one paddle is tested,
    chosen by the sign of the current horizontal velocity.  First conjunct:
    the pre-escalation horizontal velocity is negated exactly when, for the
    paddle selected by the sign of vx, the continuous-time intersection
    point (computed after the wall check, via
    `collision_r = (paddle.x - ball.x) / vx`) passes the reach test of the
    selected branch and the collides_with test of that paddle.  Second
    conjunct: the paddle of the other side is never tested - replacing it
    by an arbitrary paddle does not change the result. -/
theorem c1_paddle_selection (b : Ball) (max_height : ℚ) (player1 player2 q1 q2 : Player)
    (dt : ℚ) :
    ((b.update_position max_height player1 player2 dt).velocity.vx =
      (let b1 := b.update_if_collision_with_wall max_height dt
       if b.velocity.vx ≤ 0 then
         if (b1.calc_next_position dt).x ≤ (b1.calculate_collision_point_with_player player1).x ∧
             player1.collides_with (b1.calculate_collision_point_with_player player1) then
           -b.velocity.vx
         else b.velocity.vx
       else
         if (b1.calculate_collision_point_with_player player2).x ≤ (b1.calc_next_position dt).x ∧
             player2.collides_with (b1.calculate_collision_point_with_player player2) then
           -b.velocity.vx
         else b.velocity.vx) * VELOCITY_INCREASE) ∧
    b.update_position max_height player1 player2 dt =
      b.update_position max_height (if b.velocity.vx ≤ 0 then player1 else q1)
        (if b.velocity.vx ≤ 0 then q2 else player2) dt := by
  have hvx : (b.update_if_collision_with_wall max_height dt).velocity.vx = b.velocity.vx := by
    rw [Ball.wall_eq]
  constructor
  · show (Ball.update_position b max_height player1 player2 dt).velocity.vx = _
    unfold Ball.update_position
    by_cases h : b.velocity.vx ≤ 0
    · simp only [hvx, if_pos h, Ball.hit1_eq]
    · simp only [hvx, if_neg h, Ball.hit2_eq]
  · unfold Ball.update_position
    by_cases h : b.velocity.vx ≤ 0
    · simp only [hvx, if_pos h]
    · simp only [hvx, if_neg h]

/-- C2: in every `Ball::update_position` call the wall check uses the
    predicted next y computed from the pre-bounce velocity; vy changes sign
    (magnitude unchanged) exactly when that predicted y is `<= 0` or
    `>= max_height`, and the possibly flipped vy is the one used for this
    tick, both in the committed y integration and (escalated) in the final
    velocity. -/
theorem c2_wall_bounce (b : Ball) (max_height : ℚ) (player1 player2 : Player) (dt : ℚ) :
    ((b.update_position max_height player1 player2 dt).velocity.vy =
      (if (b.calc_next_position dt).y ≤ 0 ∨ max_height ≤ (b.calc_next_position dt).y then
        -b.velocity.vy
       else b.velocity.vy) * VELOCITY_INCREASE) ∧
    (b.update_position max_height player1 player2 dt).position.y =
      b.position.y +
        (if (b.calc_next_position dt).y ≤ 0 ∨ max_height ≤ (b.calc_next_position dt).y then
          -b.velocity.vy
         else b.velocity.vy) * dt := by
  unfold Ball.update_position
  rw [Ball.wall_eq]
  by_cases h : b.velocity.vx ≤ 0
  · simp only [if_pos h, Ball.hit1_eq, Ball.calc_next_position]
    exact ⟨trivial, trivial⟩
  · simp only [if_neg h, Ball.hit2_eq, Ball.calc_next_position]
    exact ⟨trivial, trivial⟩

theorem sq_speed_mono (X Y vx vy : ℚ) (h1 : X ^ 2 = vx ^ 2) (h2 : Y ^ 2 = vy ^ 2) :
    vx ^ 2 + vy ^ 2 ≤ (X * VELOCITY_INCREASE) ^ 2 + (Y * VELOCITY_INCREASE) ^ 2 := by
  have hs : (X * VELOCITY_INCREASE) ^ 2 + (Y * VELOCITY_INCREASE) ^ 2 =
      (vx ^ 2 + vy ^ 2) * VELOCITY_INCREASE ^ 2 := by
    rw [mul_pow, mul_pow, h1, h2]; ring
  rw [hs]
  have hnn : (0 : ℚ) ≤ vx ^ 2 + vy ^ 2 := by positivity
  have hVI : (1 : ℚ) ≤ VELOCITY_INCREASE ^ 2 := by norm_num [VELOCITY_INCREASE]
  nlinarith [hnn, hVI]

/-- C4: every `Ball::update_position` call ends by multiplying both
    velocity components by exactly 1.003, after the integration and
    regardless of bounces: the final velocity is the (possibly sign
    flipped) mid-tick velocity times `VELOCITY_INCREASE` componentwise,
    the squared speed never decreases, the speed magnitude (square root)
    never decreases, and on a tick with no sign flip the final velocity is
    exactly 1.003 times the initial one componentwise. -/
theorem c4_escalation (b : Ball) (max_height : ℚ) (player1 player2 : Player) (dt : ℚ) :
    (let u := b.update_position max_height player1 player2 dt
     let b1 := b.update_if_collision_with_wall max_height dt
     let vyMid :=
       if (b.calc_next_position dt).y ≤ 0 ∨ max_height ≤ (b.calc_next_position dt).y then
         -b.velocity.vy
       else b.velocity.vy
     let vxMid :=
       if b.velocity.vx ≤ 0 then
         if (b1.calc_next_position dt).x ≤ (b1.calculate_collision_point_with_player player1).x ∧
             player1.collides_with (b1.calculate_collision_point_with_player player1) then
           -b.velocity.vx
         else b.velocity.vx
       else
         if (b1.calculate_collision_point_with_player player2).x ≤ (b1.calc_next_position dt).x ∧
             player2.collides_with (b1.calculate_collision_point_with_player player2) then
           -b.velocity.vx
         else b.velocity.vx
     (u.velocity.vx = vxMid * VELOCITY_INCREASE ∧
        u.velocity.vy = vyMid * VELOCITY_INCREASE) ∧
     (b.velocity.vx ^ 2 + b.velocity.vy ^ 2 ≤ u.velocity.vx ^ 2 + u.velocity.vy ^ 2) ∧
     (Real.sqrt ((b.velocity.vx : ℝ) ^ 2 + (b.velocity.vy : ℝ) ^ 2) ≤
        Real.sqrt ((u.velocity.vx : ℝ) ^ 2 + (u.velocity.vy : ℝ) ^ 2)) ∧
     (vxMid = b.velocity.vx ∧ vyMid = b.velocity.vy →
        u.velocity = ⟨b.velocity.vx * VELOCITY_INCREASE, b.velocity.vy * VELOCITY_INCREASE⟩)) := by
  have hwall : (b.update_if_collision_with_wall max_height dt).velocity.vx = b.velocity.vx := by
    rw [Ball.wall_eq]
  dsimp only
  have hx : (b.update_position max_height player1 player2 dt).velocity.vx =
      (if b.velocity.vx ≤ 0 then
        if ((b.update_if_collision_with_wall max_height dt).calc_next_position dt).x ≤
              ((b.update_if_collision_with_wall max_height dt).calculate_collision_point_with_player player1).x ∧
            player1.collides_with
              ((b.update_if_collision_with_wall max_height dt).calculate_collision_point_with_player player1) then
          -b.velocity.vx
        else b.velocity.vx
       else
        if ((b.update_if_collision_with_wall max_height dt).calculate_collision_point_with_player player2).x ≤
              ((b.update_if_collision_with_wall max_height dt).calc_next_position dt).x ∧
            player2.collides_with
              ((b.update_if_collision_with_wall max_height dt).calculate_collision_point_with_player player2) then
          -b.velocity.vx
        else b.velocity.vx) * VELOCITY_INCREASE := by
    unfold Ball.update_position
    by_cases h : b.velocity.vx ≤ 0
    · simp only [hwall, if_pos h, Ball.hit1_eq]
    · simp only [hwall, if_neg h, Ball.hit2_eq]
  have hy : (b.update_position max_height player1 player2 dt).velocity.vy =
      (if (b.calc_next_position dt).y ≤ 0 ∨ max_height ≤ (b.calc_next_position dt).y then
        -b.velocity.vy
       else b.velocity.vy) * VELOCITY_INCREASE := by
    unfold Ball.update_position
    rw [Ball.wall_eq]
    by_cases h : b.velocity.vx ≤ 0
    · simp only [if_pos h, Ball.hit1_eq]
    · simp only [if_neg h, Ball.hit2_eq]
  refine ⟨⟨hx, hy⟩, ?_, ?_, ?_⟩
  · rw [hx, hy]
    have h1 : (if b.velocity.vx ≤ 0 then
        if ((b.update_if_collision_with_wall max_height dt).calc_next_position dt).x ≤
              ((b.update_if_collision_with_wall max_height dt).calculate_collision_point_with_player player1).x ∧
            player1.collides_with
              ((b.update_if_collision_with_wall max_height dt).calculate_collision_point_with_player player1) then
          -b.velocity.vx
        else b.velocity.vx
       else
        if ((b.update_if_collision_with_wall max_height dt).calculate_collision_point_with_player player2).x ≤
              ((b.update_if_collision_with_wall max_height dt).calc_next_position dt).x ∧
            player2.collides_with
              ((b.update_if_collision_with_wall max_height dt).calculate_collision_point_with_player player2) then
          -b.velocity.vx
        else b.velocity.vx) ^ 2 = b.velocity.vx ^ 2 := by
      split_ifs <;> ring
    have h2 : (if (b.calc_next_position dt).y ≤ 0 ∨ max_height ≤ (b.calc_next_position dt).y then
        -b.velocity.vy
       else b.velocity.vy) ^ 2 = b.velocity.vy ^ 2 := by
      split_ifs <;> ring
    exact sq_speed_mono _ _ _ _ h1 h2
  · apply Real.sqrt_le_sqrt
    rw [hx, hy]
    have h1 : (if b.velocity.vx ≤ 0 then
        if ((b.update_if_collision_with_wall max_height dt).calc_next_position dt).x ≤
              ((b.update_if_collision_with_wall max_height dt).calculate_collision_point_with_player player1).x ∧
            player1.collides_with
              ((b.update_if_collision_with_wall max_height dt).calculate_collision_point_with_player player1) then
          -b.velocity.vx
        else b.velocity.vx
       else
        if ((b.update_if_collision_with_wall max_height dt).calculate_collision_point_with_player player2).x ≤
              ((b.update_if_collision_with_wall max_height dt).calc_next_position dt).x ∧
            player2.collides_with
              ((b.update_if_collision_with_wall max_height dt).calculate_collision_point_with_player player2) then
          -b.velocity.vx
        else b.velocity.vx) ^ 2 = b.velocity.vx ^ 2 := by
      split_ifs <;> ring
    have h2 : (if (b.calc_next_position dt).y ≤ 0 ∨ max_height ≤ (b.calc_next_position dt).y then
        -b.velocity.vy
       else b.velocity.vy) ^ 2 = b.velocity.vy ^ 2 := by
      split_ifs <;> ring
    have hq : (b.velocity.vx : ℚ) ^ 2 + b.velocity.vy ^ 2 ≤
        ((if b.velocity.vx ≤ 0 then
          if ((b.update_if_collision_with_wall max_height dt).calc_next_position dt).x ≤
                ((b.update_if_collision_with_wall max_height dt).calculate_collision_point_with_player player1).x ∧
              player1.collides_with
                ((b.update_if_collision_with_wall max_height dt).calculate_collision_point_with_player player1) then
            -b.velocity.vx
          else b.velocity.vx
         else
          if ((b.update_if_collision_with_wall max_height dt).calculate_collision_point_with_player player2).x ≤
                ((b.update_if_collision_with_wall max_height dt).calc_next_position dt).x ∧
              player2.collides_with
                ((b.update_if_collision_with_wall max_height dt).calculate_collision_point_with_player player2) then
            -b.velocity.vx
          else b.velocity.vx) * VELOCITY_INCREASE) ^ 2 +
        ((if (b.calc_next_position dt).y ≤ 0 ∨ max_height ≤ (b.calc_next_position dt).y then
          -b.velocity.vy
         else b.velocity.vy) * VELOCITY_INCREASE) ^ 2 := by
      exact sq_speed_mono _ _ _ _ h1 h2
    exact_mod_cast hq
  · rintro ⟨hvx, hvy⟩
    have huv : (b.update_position max_height player1 player2 dt).velocity =
        ⟨(b.update_position max_height player1 player2 dt).velocity.vx,
         (b.update_position max_height player1 player2 dt).velocity.vy⟩ := rfl
    rw [huv, hx, hy, hvx, hvy]

/-- Witness for `c4_escalation`: a tick with no wall or paddle bounce,
    where the final velocity is exactly 1.003 times the initial one
    componentwise. -/
theorem c4_escalation_witness :
    (Ball.update_position ⟨⟨30, 9⟩, ⟨10, -6⟩⟩ 18
        (Player.new 1 1 (KeyCode.Char 'w') (KeyCode.Char 's') ⟨0, 9⟩)
        (Player.new 1 1 KeyCode.Up KeyCode.Down ⟨60, 9⟩) (1/10)).velocity =
      ⟨10 * VELOCITY_INCREASE, -6 * VELOCITY_INCREASE⟩ :=
  (c4_escalation ⟨⟨30, 9⟩, ⟨10, -6⟩⟩ 18
      (Player.new 1 1 (KeyCode.Char 'w') (KeyCode.Char 's') ⟨0, 9⟩)
      (Player.new 1 1 KeyCode.Up KeyCode.Down ⟨60, 9⟩) (1/10)).2.2.2
    ⟨of_decide_eq_true (by with_unfolding_all rfl),
     of_decide_eq_true (by with_unfolding_all rfl)⟩

/- ----------------------------------------------------------------------
   usize arithmetic and rounding lemmas.
   ---------------------------------------------------------------------- -/

theorem usizeSub_eq_sub (a b : ℕ) (hba : b ≤ a) (ha : a ≤ USIZE_MAX) :
    usizeSub a b = a - b := by
  unfold usizeSub
  unfold USIZE_MAX at ha
  have h1 : 0 ≤ (a : ℤ) - (b : ℤ) := by omega
  have h2 : (a : ℤ) - (b : ℤ) < (2 : ℤ) ^ 64 := by push_cast; omega
  rw [Int.emod_eq_of_lt h1 h2]
  omega

theorem usizeAdd_eq_add (a b : ℕ) (h : a + b ≤ USIZE_MAX) : usizeAdd a b = a + b := by
  unfold usizeAdd
  unfold USIZE_MAX at h
  exact Nat.mod_eq_of_lt (by omega)

theorem to_discrete_y_le (p : Position2D) : p.to_discrete.y ≤ USIZE_MAX :=
  min_le_right _ _

theorem roundHalfAway_ge_nat (d : ℕ) (q : ℚ) (h : (d : ℚ) ≤ q) :
    (d : ℤ) ≤ roundHalfAway q := by
  unfold roundHalfAway
  have h0 : (0 : ℚ) ≤ q := le_trans (by positivity) h
  rw [if_pos h0]
  exact Int.le_floor.mpr (by push_cast; linarith)

theorem floor_nat_div_two (n : ℕ) : ⌊(n : ℚ) / 2⌋ = ((n / 2 : ℕ) : ℤ) := by
  have h2 : (0 : ℚ) < 2 := by norm_num
  rw [Int.floor_eq_iff]
  constructor
  · rw [le_div_iff₀ h2]
    have : (n / 2) * 2 ≤ n := by omega
    exact_mod_cast this
  · rw [div_lt_iff₀ h2]
    have : n < (n / 2 + 1) * 2 := by omega
    push_cast
    exact_mod_cast this

/-- Rounding the y coordinate of the initial paddle position:
    `round(height / 2)` is `(height + 1) / 2` in integer arithmetic. -/
theorem roundHalfAway_half_nat (h : ℕ) :
    roundHalfAway ((h : ℚ) / 2) = (((h + 1) / 2 : ℕ) : ℤ) := by
  unfold roundHalfAway
  rw [if_pos (by positivity)]
  have heq : (h : ℚ) / 2 + 1 / 2 = ((h + 1 : ℕ) : ℚ) / 2 := by push_cast; ring
  rw [heq, floor_nat_div_two]

theorem le_fmax_right (a b : ℚ) : b ≤ fmax a b := by
  unfold fmax
  split
  · assumption
  · exact le_refl b

theorem fmax_le (a b c : ℚ) (h1 : a ≤ c) (h2 : b ≤ c) : fmax a b ≤ c := by
  unfold fmax
  split
  · exact h1
  · exact h2

theorem fmin_le_right (a b : ℚ) : fmin a b ≤ b := by
  unfold fmin
  split
  · assumption
  · exact le_refl b

/- ----------------------------------------------------------------------
   C3: the paddle clamp invariant.
   ---------------------------------------------------------------------- -/

/-- C3 counterexample: the claim quantifies over all non-negative
    extensions, but when `extend_down + extend_up > max_height` the target
    interval is empty and the clamped position cannot lie in it.  With
    `extend_up = extend_down = 1`, `max_height = 1`, start `y = 1/2`,
    empty key set and `dt = 0` (non-negative), the updated y is 1, which
    is not `≤ max_height - extend_up = 0`. -/
theorem c3_clamp_counterexample :
    (0 : ℚ) ≤ 0 ∧
    ¬ (((Player.new 1 1 (KeyCode.Char 'w') (KeyCode.Char 's')
          ⟨0, 1/2⟩).update_position 1 [] 0).position.y ≤ (1 : ℚ) - 1) :=
  of_decide_eq_true (by with_unfolding_all rfl)

/-- C3 (amended): for every paddle, key set, non-negative dt and starting
    position, provided the configuration is satisfiable
    (`extend_down + extend_up ≤ max_height`), after
    `Player::update_position` the y position lies in
    `[extend_down, max_height - extend_up]`. -/
theorem c3_clamp_amended (p : Player) (max_height dt : ℚ) (pressed_keys : PressedKeys)
    (hdt : 0 ≤ dt) (hcfg : (p.extend_down : ℚ) + (p.extend_up : ℚ) ≤ max_height) :
    (p.extend_down : ℚ) ≤ (p.update_position max_height pressed_keys dt).position.y ∧
    (p.update_position max_height pressed_keys dt).position.y ≤
      max_height - (p.extend_up : ℚ) := by
  unfold Player.update_position
  dsimp only
  constructor
  · refine le_trans ?_ (le_fmax_right _ _)
    linarith
  · apply fmax_le
    · exact le_trans (fmin_le_right _ _) (le_refl _)
    · linarith

/-- Witness for `c3_clamp_amended`: paddle with reach 1/1 at height 9 in a
    field of height 18, holding the up key for a tenth of a second. -/
theorem c3_clamp_witness :
    (0 : ℚ) ≤ 1/10 ∧
    (((Player.new 1 1 (KeyCode.Char 'w') (KeyCode.Char 's') ⟨0, 9⟩).extend_down : ℚ) +
      ((Player.new 1 1 (KeyCode.Char 'w') (KeyCode.Char 's') ⟨0, 9⟩).extend_up : ℚ) ≤ 18) ∧
    (((Player.new 1 1 (KeyCode.Char 'w') (KeyCode.Char 's') ⟨0, 9⟩).extend_down : ℚ) ≤
      ((Player.new 1 1 (KeyCode.Char 'w') (KeyCode.Char 's') ⟨0, 9⟩).update_position 18
        [KeyCode.Char 'w'] (1/10)).position.y ∧
      ((Player.new 1 1 (KeyCode.Char 'w') (KeyCode.Char 's') ⟨0, 9⟩).update_position 18
        [KeyCode.Char 'w'] (1/10)).position.y ≤
        18 - ((Player.new 1 1 (KeyCode.Char 'w') (KeyCode.Char 's') ⟨0, 9⟩).extend_up : ℚ)) :=
  ⟨of_decide_eq_true (by with_unfolding_all rfl),
   of_decide_eq_true (by with_unfolding_all rfl),
   c3_clamp_amended (Player.new 1 1 (KeyCode.Char 'w') (KeyCode.Char 's') ⟨0, 9⟩) 18 (1/10)
     [KeyCode.Char 'w'] (of_decide_eq_true (by with_unfolding_all rfl))
     (of_decide_eq_true (by with_unfolding_all rfl))⟩

/- ----------------------------------------------------------------------
   C7: the collides_with characterisation.
   ---------------------------------------------------------------------- -/

/-- The collision test as the specification words it: the discrete y of
    the query lies in the interval
    `[own_y - extend_down, own_y + extend_up]`, read over the integers,
    and the discrete x coordinates agree. -/
def collides_with_spec (p : Player) (position : Position2D) : Prop :=
  ((p.position.to_discrete.y : ℤ) - (p.extend_down : ℤ) ≤ (position.to_discrete.y : ℤ)) ∧
  ((position.to_discrete.y : ℤ) ≤ (p.position.to_discrete.y : ℤ) + (p.extend_up : ℤ)) ∧
  p.position.to_discrete.x = position.to_discrete.x

instance (p : Player) (q : Position2D) : Decidable (collides_with_spec p q) := by
  unfold collides_with_spec; infer_instance

/-- C7 counterexample: a paddle whose rounded y (0) is smaller than its
    extend_down (1).  The usize subtraction wraps to `2^64 - 1`, so
    `collides_with` returns false at the cell the specification interval
    contains; the claimed equivalence fails for this paddle and query. -/
theorem c7_collides_counterexample :
    (Player.new 0 1 (KeyCode.Char 'w') (KeyCode.Char 's') ⟨0, 0⟩).collides_with ⟨0, 0⟩ = false ∧
    collides_with_spec (Player.new 0 1 (KeyCode.Char 'w') (KeyCode.Char 's') ⟨0, 0⟩) ⟨0, 0⟩ ∧
    ¬ ((Player.new 0 1 (KeyCode.Char 'w') (KeyCode.Char 's') ⟨0, 0⟩).collides_with ⟨0, 0⟩ = true ↔
        collides_with_spec (Player.new 0 1 (KeyCode.Char 'w') (KeyCode.Char 's') ⟨0, 0⟩) ⟨0, 0⟩) :=
  of_decide_eq_true (by with_unfolding_all rfl)

/-- C7 (amended): provided the rounded paddle y is at least extend_down
    (no usize underflow) and `rounded y + extend_up` does not exceed
    usize::MAX (no wrap on the addition), `Player::collides_with` returns
    true exactly on the single column of `extend_down + extend_up + 1`
    cells described by the specification. -/
theorem c7_collides_amended (p : Player) (q : Position2D)
    (hd : p.extend_down ≤ p.position.to_discrete.y)
    (hu : p.position.to_discrete.y + p.extend_up ≤ USIZE_MAX) :
    p.collides_with q = true ↔ collides_with_spec p q := by
  simp only [Player.collides_with, collides_with_spec, decide_eq_true_eq]
  rw [usizeSub_eq_sub _ _ hd (to_discrete_y_le p.position), usizeAdd_eq_add _ _ hu]
  constructor
  · rintro ⟨h1, h2, h3⟩
    refine ⟨?_, ?_, h3⟩ <;> omega
  · rintro ⟨h1, h2, h3⟩
    refine ⟨?_, ?_, h3⟩ <;> omega

/-- Witness for `c7_collides_amended`: the default paddle of a 60 by 18
    game and the cell just below its centre. -/
theorem c7_collides_witness :
    ((Player.new 1 1 (KeyCode.Char 'w') (KeyCode.Char 's') ⟨0, 9⟩).extend_down ≤
      (Player.new 1 1 (KeyCode.Char 'w') (KeyCode.Char 's') ⟨0, 9⟩).position.to_discrete.y) ∧
    ((Player.new 1 1 (KeyCode.Char 'w') (KeyCode.Char 's') ⟨0, 9⟩).position.to_discrete.y +
      (Player.new 1 1 (KeyCode.Char 'w') (KeyCode.Char 's') ⟨0, 9⟩).extend_up ≤ USIZE_MAX) ∧
    ((Player.new 1 1 (KeyCode.Char 'w') (KeyCode.Char 's') ⟨0, 9⟩).collides_with ⟨0, 8⟩ = true ↔
      collides_with_spec (Player.new 1 1 (KeyCode.Char 'w') (KeyCode.Char 's') ⟨0, 9⟩) ⟨0, 8⟩) :=
  ⟨of_decide_eq_true (by with_unfolding_all rfl),
   of_decide_eq_true (by with_unfolding_all rfl),
   c7_collides_amended (Player.new 1 1 (KeyCode.Char 'w') (KeyCode.Char 's') ⟨0, 9⟩) ⟨0, 8⟩
     (of_decide_eq_true (by with_unfolding_all rfl))
     (of_decide_eq_true (by with_unfolding_all rfl))⟩

/- ----------------------------------------------------------------------
   C10: the usize subtraction in collides_with.
   ---------------------------------------------------------------------- -/

theorem update_position_y_ge (p : Player) (max_height : ℚ) (pressed_keys : PressedKeys)
    (dt : ℚ) :
    (p.extend_down : ℚ) ≤ (p.update_position max_height pressed_keys dt).position.y := by
  unfold Player.update_position
  dsimp only
  refine le_trans ?_ (le_fmax_right _ _)
  linarith

/-- C10 counterexample: the claim asserts that a fresh game with
    `extend_down > height / 2` has a paddle whose rounded y is below
    extend_down.  With height 1 and extend_down 1 the premise holds
    (`1 > 1/2`), but the rounded initial y is `round(0.5) = 1`, which is
    not below extend_down, and the subtraction does not underflow. -/
theorem c10_underflow_counterexample :
    ((1 : ℚ) / 2 < ((1 : ℕ) : ℚ)) ∧
    ((GameState.new 60 1 1 1 ⟨true, 10, -15, 0⟩).player1.position.to_discrete).y = 1 ∧
    ¬ (((GameState.new 60 1 1 1 ⟨true, 10, -15, 0⟩).player1.position.to_discrete).y < 1) ∧
    usizeSub ((GameState.new 60 1 1 1 ⟨true, 10, -15, 0⟩).player1.position.to_discrete).y 1 = 0 :=
  of_decide_eq_true (by with_unfolding_all rfl)

/-- C10 (amended): (1) when the rounded paddle y is at least extend_down
    the usize subtraction in `collides_with` equals the true difference
    (no underflow); (2) every `Player::update_position` call establishes
    that precondition via the clamp (for any extend_down that fits in a
    usize); (3) the precondition is not established by construction: a
    fresh `GameState` with `extend_down > round(height / 2)`, the rounded
    half height being `(height + 1) / 2`, holds a paddle whose rounded y
    is below extend_down. -/
theorem c10_underflow_amended :
    (∀ p : Player, p.extend_down ≤ p.position.to_discrete.y →
      usizeSub p.position.to_discrete.y p.extend_down =
        p.position.to_discrete.y - p.extend_down) ∧
    (∀ (p : Player) (max_height dt : ℚ) (pressed_keys : PressedKeys),
      p.extend_down ≤ USIZE_MAX →
      p.extend_down ≤ (p.update_position max_height pressed_keys dt).position.to_discrete.y) ∧
    (∀ (w h up down : ℕ) (r : RandStream), h ≤ USIZE_MAX → (h + 1) / 2 < down →
      ((GameState.new w h up down r).player1.position.to_discrete).y < down) := by
  refine ⟨?_, ?_, ?_⟩
  · intro p h
    exact usizeSub_eq_sub _ _ h (to_discrete_y_le p.position)
  · intro p max_height dt pressed_keys hmax
    have hy := update_position_y_ge p max_height pressed_keys dt
    have hr : (p.extend_down : ℤ) ≤
        roundHalfAway (p.update_position max_height pressed_keys dt).position.y :=
      roundHalfAway_ge_nat _ _ hy
    simp only [Position2D.to_discrete, f64AsUsize]
    exact le_min (by omega) hmax
  · intro w h up down r hh hd
    show ((GameState.initial_player1_position w h).to_discrete).y < down
    simp only [GameState.initial_player1_position, Position2D.to_discrete, f64AsUsize,
      roundHalfAway_half_nat]
    unfold USIZE_MAX at hh ⊢
    omega

/-- Witness for `c10_underflow_amended` at concrete inputs: a paddle with
    rounded y 9 and extend_down 1 for the no-underflow part, the same
    paddle updated with empty keys for the clamp part, and a fresh 60 by 4
    game with extend_down 3 for the construction gap part. -/
theorem c10_underflow_witness :
    ((Player.new 1 1 (KeyCode.Char 'w') (KeyCode.Char 's') ⟨0, 9⟩).extend_down ≤
        (Player.new 1 1 (KeyCode.Char 'w') (KeyCode.Char 's') ⟨0, 9⟩).position.to_discrete.y ∧
      usizeSub (Player.new 1 1 (KeyCode.Char 'w') (KeyCode.Char 's')
          ⟨0, 9⟩).position.to_discrete.y
          (Player.new 1 1 (KeyCode.Char 'w') (KeyCode.Char 's') ⟨0, 9⟩).extend_down =
        (Player.new 1 1 (KeyCode.Char 'w') (KeyCode.Char 's')
          ⟨0, 9⟩).position.to_discrete.y -
          (Player.new 1 1 (KeyCode.Char 'w') (KeyCode.Char 's') ⟨0, 9⟩).extend_down) ∧
    ((Player.new 1 1 (KeyCode.Char 'w') (KeyCode.Char 's') ⟨0, 9⟩).extend_down ≤ USIZE_MAX ∧
      (Player.new 1 1 (KeyCode.Char 'w') (KeyCode.Char 's') ⟨0, 9⟩).extend_down ≤
        ((Player.new 1 1 (KeyCode.Char 'w') (KeyCode.Char 's') ⟨0, 9⟩).update_position 18 []
          (1/10)).position.to_discrete.y) ∧
    (4 ≤ USIZE_MAX ∧ (4 + 1) / 2 < 3 ∧
      ((GameState.new 60 4 1 3 ⟨true, 10, -15, 0⟩).player1.position.to_discrete).y < 3) :=
  ⟨⟨of_decide_eq_true (by with_unfolding_all rfl),
    c10_underflow_amended.1 (Player.new 1 1 (KeyCode.Char 'w') (KeyCode.Char 's') ⟨0, 9⟩)
      (of_decide_eq_true (by with_unfolding_all rfl))⟩,
   ⟨of_decide_eq_true (by with_unfolding_all rfl),
    c10_underflow_amended.2.1 (Player.new 1 1 (KeyCode.Char 'w') (KeyCode.Char 's') ⟨0, 9⟩)
      18 (1/10) [] (of_decide_eq_true (by with_unfolding_all rfl))⟩,
   ⟨of_decide_eq_true (by with_unfolding_all rfl),
    of_decide_eq_true (by with_unfolding_all rfl),
    c10_underflow_amended.2.2 60 4 1 3 ⟨true, 10, -15, 0⟩
      (of_decide_eq_true (by with_unfolding_all rfl))
      (of_decide_eq_true (by with_unfolding_all rfl))⟩⟩

/- ----------------------------------------------------------------------
   C5: scoring.
   ---------------------------------------------------------------------- -/

/-- The scoring contract of one `GameState::update` tick without the
    manual reset key, phrased against the state after the paddle and ball
    updates (which is what `update_score` inspects): the two scoring
    branches, their effects, their mutual exclusion, and score
    monotonicity. -/
def ScoreSpec (g : GameState) (pressed_keys : PressedKeys) (dt : ℚ) (r : RandStream) : Prop :=
  let p1 := g.player1.update_position (g.height : ℚ) pressed_keys dt
  let p2 := g.player2.update_position (g.height : ℚ) pressed_keys dt
  let b := g.ball.update_position (g.height : ℚ) p1 p2 dt
  let u := g.update pressed_keys dt r
  ((b.velocity.vx ≤ 0 ∧ b.position.x < p1.position.x) →
      u.player2_score = g.player2_score + 1 ∧
      u.player1_score = g.player1_score ∧
      u.ball.position = GameState.initial_ball_position g.width g.height ∧
      u.player1.position = GameState.initial_player1_position g.width g.height ∧
      u.player2.position = GameState.initial_player2_position g.width g.height) ∧
  (¬ (b.velocity.vx ≤ 0 ∧ b.position.x < p1.position.x) →
    (0 < b.velocity.vx ∧ p2.position.x < b.position.x) →
      u.player1_score = g.player1_score + 1 ∧
      u.player2_score = g.player2_score ∧
      u.ball.position = GameState.initial_ball_position g.width g.height ∧
      u.player1.position = GameState.initial_player1_position g.width g.height ∧
      u.player2.position = GameState.initial_player2_position g.width g.height) ∧
  (¬ (b.velocity.vx ≤ 0 ∧ b.position.x < p1.position.x) →
    ¬ (0 < b.velocity.vx ∧ p2.position.x < b.position.x) →
      u.player1_score = g.player1_score ∧
      u.player2_score = g.player2_score ∧
      u.ball = b ∧ u.player1 = p1 ∧ u.player2 = p2) ∧
  ¬ ((b.velocity.vx ≤ 0 ∧ b.position.x < p1.position.x) ∧
     (0 < b.velocity.vx ∧ p2.position.x < b.position.x)) ∧
  g.player1_score ≤ u.player1_score ∧
  g.player2_score ≤ u.player2_score

/-- C5: in every `GameState::update` call where the reset key is not held,
    after the ball update, player2 scores exactly one point and positions
    reset when `vx <= 0` and the ball is left of paddle1; otherwise
    player1 scores exactly one point and positions reset when `vx > 0`
    and the ball is right of paddle2; otherwise both scores are unchanged.
    The two cases are mutually exclusive and scores never decrease. -/
theorem c5_scoring (g : GameState) (pressed_keys : PressedKeys) (dt : ℚ) (r : RandStream)
    (h : KeyCode.Char 'r' ∉ pressed_keys) : ScoreSpec g pressed_keys dt r := by
  unfold ScoreSpec GameState.update
  rw [if_neg h]
  dsimp only
  unfold GameState.update_score GameState.reset_ball_and_players
  dsimp only
  split_ifs with hc2 hc1
  · refine ⟨fun _ => ⟨rfl, rfl, rfl, rfl, rfl⟩,
      fun hn => absurd hc2 hn, fun hn => absurd hc2 hn, ?_, le_refl _, Nat.le_succ _⟩
    rintro ⟨hA, hB⟩
    exact absurd hB.1 (not_lt.mpr hA.1)
  · refine ⟨fun hcc => absurd hcc hc2, fun _ _ => ⟨rfl, rfl, rfl, rfl, rfl⟩,
      fun _ hn => absurd hc1 hn, ?_, Nat.le_succ _, le_refl _⟩
    rintro ⟨hA, hB⟩
    exact absurd hB.1 (not_lt.mpr hA.1)
  · refine ⟨fun hcc => absurd hcc hc2, fun _ hcc => absurd hcc hc1,
      fun _ _ => ⟨rfl, rfl, rfl, rfl, rfl⟩, ?_, le_refl _, le_refl _⟩
    rintro ⟨hA, hB⟩
    exact absurd hB.1 (not_lt.mpr hA.1)

/-- Witness for `c5_scoring`: the 60 by 18 game after one tick with no
    keys held. -/
theorem c5_scoring_witness :
    KeyCode.Char 'r' ∉ ([] : PressedKeys) ∧
    ScoreSpec (GameState.new 60 18 1 1 ⟨true, 10, -15, 0⟩) [] (1/10) ⟨true, 10, -15, 0⟩ :=
  ⟨of_decide_eq_true (by with_unfolding_all rfl),
   c5_scoring (GameState.new 60 18 1 1 ⟨true, 10, -15, 0⟩) [] (1/10) ⟨true, 10, -15, 0⟩
     (of_decide_eq_true (by with_unfolding_all rfl))⟩

/- ----------------------------------------------------------------------
   C6: reset layout and randomized velocity.
   ---------------------------------------------------------------------- -/

/-- The contract of `GameState::reset_ball_and_players`: initial layout,
    the randomized velocity ranges the generator can produce
    (`vx` in `[10, 20)` or in `[-20, -10)`, `vy` in `[-6, 6)`), and the
    fields a reset never touches. -/
def ResetSpec (g : GameState) (r : RandStream) : Prop :=
  let g2 := g.reset_ball_and_players r
  g2.player1.position = ⟨0, (g.height : ℚ) / 2⟩ ∧
  g2.player2.position = ⟨(g.width : ℚ), (g.height : ℚ) / 2⟩ ∧
  g2.ball.position = ⟨(g.width : ℚ) / 2, (g.height : ℚ) / 2⟩ ∧
  ((10 ≤ g2.ball.velocity.vx ∧ g2.ball.velocity.vx < 20) ∨
    (-20 ≤ g2.ball.velocity.vx ∧ g2.ball.velocity.vx < -10)) ∧
  (-6 ≤ g2.ball.velocity.vy ∧ g2.ball.velocity.vy < 6) ∧
  g2.player1_score = g.player1_score ∧
  g2.player2_score = g.player2_score ∧
  g2.width = g.width ∧
  g2.height = g.height ∧
  g2.player1.velocity = g.player1.velocity ∧
  g2.player2.velocity = g.player2.velocity

/-- C6 counterexample: the claim glosses the vx range as having magnitude
    in `[10, 20)`, but the negative draw range `[-20, -10)` includes -20
    itself, whose magnitude 20 is outside `[10, 20)`.  The stream that
    flips tails and draws exactly -20 is valid, and the reset installs
    `vx = -20`, falsifying the magnitude gloss (written here without an
    absolute value: magnitude in `[10, 20)` means `vx` in `[10, 20)` or in
    `(-20, -10]`). -/
theorem c6_reset_counterexample :
    RandStream.Valid ⟨false, 12, -20, 0⟩ ∧
    ((GameState.new 60 18 1 1 ⟨true, 10, -15, 0⟩).reset_ball_and_players
        ⟨false, 12, -20, 0⟩).ball.velocity.vx = -20 ∧
    ¬ ((10 ≤ ((GameState.new 60 18 1 1 ⟨true, 10, -15, 0⟩).reset_ball_and_players
          ⟨false, 12, -20, 0⟩).ball.velocity.vx ∧
        ((GameState.new 60 18 1 1 ⟨true, 10, -15, 0⟩).reset_ball_and_players
          ⟨false, 12, -20, 0⟩).ball.velocity.vx < 20) ∨
       (-20 < ((GameState.new 60 18 1 1 ⟨true, 10, -15, 0⟩).reset_ball_and_players
          ⟨false, 12, -20, 0⟩).ball.velocity.vx ∧
        ((GameState.new 60 18 1 1 ⟨true, 10, -15, 0⟩).reset_ball_and_players
          ⟨false, 12, -20, 0⟩).ball.velocity.vx ≤ -10)) :=
  of_decide_eq_true (by with_unfolding_all rfl)

/-- C6 (amended): for every state and every valid outcome of the random
    stream, a reset places both paddles and the ball at the initial
    layout, installs `vx` in `[10, 20)` or in `[-20, -10)` (magnitude in
    `[10, 20]`) and `vy` in `[-6, 6)`, and changes neither the scores, nor
    the field dimensions, nor the paddle velocities. -/
theorem c6_reset_amended (g : GameState) (r : RandStream) (hr : r.Valid) :
    ResetSpec g r := by
  obtain ⟨⟨hp1, hp2⟩, ⟨hn1, hn2⟩, hv1, hv2⟩ := hr
  unfold ResetSpec GameState.reset_ball_and_players
  dsimp only
  refine ⟨rfl, rfl, rfl, ?_, ⟨hv1, hv2⟩, rfl, rfl, rfl, rfl, rfl, rfl⟩
  unfold Ball.random_ball_velocity
  cases hc : r.coin
  · exact Or.inr ⟨by simpa [hc] using hn1, by simpa [hc] using hn2⟩
  · exact Or.inl ⟨by simpa [hc] using hp1, by simpa [hc] using hp2⟩

/-- Witness for `c6_reset_amended`: reset of the 60 by 18 game with a
    valid stream that flips heads and draws 10. -/
theorem c6_reset_witness :
    RandStream.Valid ⟨true, 10, -15, 0⟩ ∧
    ResetSpec (GameState.new 60 18 1 1 ⟨true, 10, -15, 0⟩) ⟨true, 10, -15, 0⟩ :=
  ⟨of_decide_eq_true (by with_unfolding_all rfl),
   c6_reset_amended (GameState.new 60 18 1 1 ⟨true, 10, -15, 0⟩) ⟨true, 10, -15, 0⟩
     (of_decide_eq_true (by with_unfolding_all rfl))⟩

/- ----------------------------------------------------------------------
   C9: the ball and the field boundary.
   ---------------------------------------------------------------------- -/

/-- One `Ball::update_position` call moves x by `m * dt` and scales vx to
    `m * VELOCITY_INCREASE`, for the same mid-tick horizontal velocity m
    (the possibly sign-flipped vx). -/
theorem Ball.update_position_shape (b : Ball) (max_height : ℚ) (player1 player2 : Player)
    (dt : ℚ) :
    ∃ m : ℚ,
      (b.update_position max_height player1 player2 dt).velocity.vx =
        m * VELOCITY_INCREASE ∧
      (b.update_position max_height player1 player2 dt).position.x =
        b.position.x + m * dt := by
  unfold Ball.update_position
  rw [Ball.wall_eq]
  dsimp only
  by_cases h : b.velocity.vx ≤ 0
  · rw [if_pos h, Ball.hit1_eq]
    exact ⟨_, rfl, rfl⟩
  · rw [if_neg h, Ball.hit2_eq]
    exact ⟨_, rfl, rfl⟩

/-- For a non-negative dt the ball never overtakes its own direction of
    travel within one tick: if it ends the tick moving left (vx not
    positive) its x did not increase, and if it ends moving right its x
    did not decrease.  The escalation factor is positive, so the final vx
    has the sign of the mid-tick vx. -/
theorem Ball.update_position_x_dir (b : Ball) (max_height : ℚ) (player1 player2 : Player)
    (dt : ℚ) (hdt : 0 ≤ dt) :
    ((b.update_position max_height player1 player2 dt).velocity.vx ≤ 0 →
      (b.update_position max_height player1 player2 dt).position.x ≤ b.position.x) ∧
    (0 ≤ (b.update_position max_height player1 player2 dt).velocity.vx →
      b.position.x ≤ (b.update_position max_height player1 player2 dt).position.x) := by
  obtain ⟨m, hvx, hx⟩ := Ball.update_position_shape b max_height player1 player2 dt
  have hVI : (0 : ℚ) < VELOCITY_INCREASE := by norm_num [VELOCITY_INCREASE]
  rw [hvx, hx]
  constructor
  · intro h
    have hm : m ≤ 0 := by nlinarith
    nlinarith
  · intro h
    have hm : 0 ≤ m := by nlinarith
    nlinarith

/-- The states the game can actually be in: a fresh game, or any state
    obtained from a reachable one by one `GameState::update` call, with
    the random draws always in the ranges the generator produces and the
    tick duration non-negative, as `Duration::as_secs_f64` always is. -/
inductive Reachable : GameState → Prop where
  | init (width height extend_up extend_down : ℕ) (r : RandStream) (hr : r.Valid) :
      Reachable (GameState.new width height extend_up extend_down r)
  | step (g : GameState) (pressed_keys : PressedKeys) (dt : ℚ) (r : RandStream)
      (hdt : 0 ≤ dt) (hr : r.Valid) (hg : Reachable g) :
      Reachable (g.update pressed_keys dt r)

/-- The ball x coordinate lies within the field, between the two goal
    lines. -/
def BallInField (g : GameState) : Prop :=
  0 ≤ g.ball.position.x ∧ g.ball.position.x ≤ (g.width : ℚ)

/-- The paddle columns stay at x = 0 and x = width with zero horizontal
    velocity. -/
def PaddleColumns (g : GameState) : Prop :=
  g.player1.position.x = 0 ∧ g.player1.velocity.vx = 0 ∧
  g.player2.position.x = (g.width : ℚ) ∧ g.player2.velocity.vx = 0

theorem Player.update_position_velocity_eq (p : Player) (max_height : ℚ)
    (pressed_keys : PressedKeys) (dt : ℚ) :
    (p.update_position max_height pressed_keys dt).velocity = p.velocity := rfl

theorem Player.update_position_x_eq (p : Player) (max_height : ℚ)
    (pressed_keys : PressedKeys) (dt : ℚ) (h : p.velocity.vx = 0) :
    (p.update_position max_height pressed_keys dt).position.x = p.position.x := by
  unfold Player.update_position
  dsimp only
  split_ifs <;> simp [h]

theorem reset_inv (g : GameState) (r : RandStream)
    (h1v : g.player1.velocity.vx = 0) (h2v : g.player2.velocity.vx = 0) :
    PaddleColumns (g.reset_ball_and_players r) ∧
    BallInField (g.reset_ball_and_players r) := by
  unfold GameState.reset_ball_and_players PaddleColumns BallInField
    GameState.initial_player1_position GameState.initial_player2_position
    GameState.initial_ball_position
  dsimp only
  refine ⟨⟨rfl, h1v, rfl, h2v⟩, by positivity, ?_⟩
  have : (0 : ℚ) ≤ (g.width : ℚ) := Nat.cast_nonneg _
  linarith

theorem update_score_inv (g : GameState) (r : RandStream)
    (h1x : g.player1.position.x = 0) (h1v : g.player1.velocity.vx = 0)
    (h2x : g.player2.position.x = (g.width : ℚ)) (h2v : g.player2.velocity.vx = 0)
    (hup : g.ball.velocity.vx ≤ 0 → g.ball.position.x ≤ (g.width : ℚ))
    (hlo : 0 < g.ball.velocity.vx → 0 ≤ g.ball.position.x) :
    PaddleColumns (g.update_score r) ∧ BallInField (g.update_score r) := by
  unfold GameState.update_score
  split_ifs with hc2 hc1
  · exact reset_inv _ r h1v h2v
  · exact reset_inv _ r h1v h2v
  · refine ⟨⟨h1x, h1v, h2x, h2v⟩, ?_, ?_⟩
    · by_cases hvx : g.ball.velocity.vx ≤ 0
      · have hx : ¬ g.ball.position.x < g.player1.position.x := fun hlt => hc2 ⟨hvx, hlt⟩
        rw [h1x] at hx
        exact not_lt.mp hx
      · exact hlo (not_le.mp hvx)
    · by_cases hvx : 0 < g.ball.velocity.vx
      · have hx : ¬ g.player2.position.x < g.ball.position.x := fun hlt => hc1 ⟨hvx, hlt⟩
        rw [h2x] at hx
        exact not_lt.mp hx
      · exact hup (not_lt.mp hvx)

theorem reachable_inv (g : GameState) (h : Reachable g) :
    PaddleColumns g ∧ BallInField g := by
  induction h with
  | init w h up down r hr =>
      refine ⟨⟨rfl, rfl, rfl, rfl⟩, ?_, ?_⟩
      · show (0 : ℚ) ≤ (w : ℚ) / 2
        positivity
      · show (w : ℚ) / 2 ≤ (w : ℚ)
        have : (0 : ℚ) ≤ (w : ℚ) := Nat.cast_nonneg _
        linarith
  | step g pressed_keys dt r hdt hr hg ih =>
      obtain ⟨⟨h1x, h1v, h2x, h2v⟩, hbx0, hbxw⟩ := ih
      unfold GameState.update
      split_ifs with hres
      · exact reset_inv g r h1v h2v
      · dsimp only
        have hdir := Ball.update_position_x_dir g.ball (g.height : ℚ)
          (g.player1.update_position (g.height : ℚ) pressed_keys dt)
          (g.player2.update_position (g.height : ℚ) pressed_keys dt) dt hdt
        refine update_score_inv _ r ?_ ?_ ?_ ?_ ?_ ?_
        · rw [Player.update_position_x_eq _ _ _ _ h1v]
          exact h1x
        · show (g.player1.update_position (g.height : ℚ) pressed_keys dt).velocity.vx = 0
          rw [Player.update_position_velocity_eq]
          exact h1v
        · rw [Player.update_position_x_eq _ _ _ _ h2v]
          exact h2x
        · show (g.player2.update_position (g.height : ℚ) pressed_keys dt).velocity.vx = 0
          rw [Player.update_position_velocity_eq]
          exact h2v
        · intro hv
          exact le_trans (hdir.1 hv) hbxw
        · intro hv
          exact le_trans hbx0 (hdir.2 hv.le)

/-- C9 counterexample: the y bound fails for a large dt.  A fresh 60 by 18
    game whose valid stream gives velocity (10, -6), updated once with no
    keys and dt = 2: the wall check flips vy to 6, the integration then
    carries the ball to y = 21, above the field height 18, at the end of
    the `GameState::update` call. -/
theorem c9_ball_leaves_field_counterexample :
    RandStream.Valid ⟨true, 10, -15, -6⟩ ∧
    (0 : ℚ) < 2 ∧
    Reachable (GameState.new 60 18 1 1 ⟨true, 10, -15, -6⟩) ∧
    ((GameState.new 60 18 1 1 ⟨true, 10, -15, -6⟩).update [] 2
        ⟨true, 10, -15, -6⟩).ball.position.y = 21 ∧
    ¬ (((GameState.new 60 18 1 1 ⟨true, 10, -15, -6⟩).update [] 2
          ⟨true, 10, -15, -6⟩).ball.position.y ≤
        (((GameState.new 60 18 1 1 ⟨true, 10, -15, -6⟩).update [] 2
          ⟨true, 10, -15, -6⟩).height : ℚ)) :=
  ⟨of_decide_eq_true (by with_unfolding_all rfl),
   of_decide_eq_true (by with_unfolding_all rfl),
   Reachable.init 60 18 1 1 ⟨true, 10, -15, -6⟩ (of_decide_eq_true (by with_unfolding_all rfl)),
   of_decide_eq_true (by with_unfolding_all rfl),
   of_decide_eq_true (by with_unfolding_all rfl)⟩

/-- C9 (amended): for every reachable state, every key set, every
    positive dt and every valid random stream, at the end of the
    `GameState::update` call the ball x lies within the field,
    `0 ≤ x ≤ width`: a flip moves the ball back into the field from a
    start inside it, and an overshoot past either goal line triggers the
    score check, whose reset recentres the ball.  The y bound of the
    original claim fails for large dt, as the counterexample shows, and
    is the only part dropped. -/
theorem c9_ball_x_within_field (g : GameState) (pressed_keys : PressedKeys) (dt : ℚ)
    (r : RandStream) (hg : Reachable g) (hr : r.Valid) (hdt : 0 < dt) :
    0 ≤ (g.update pressed_keys dt r).ball.position.x ∧
    (g.update pressed_keys dt r).ball.position.x ≤
      ((g.update pressed_keys dt r).width : ℚ) :=
  (reachable_inv _ (Reachable.step g pressed_keys dt r hdt.le hr hg)).2

/-- Witness for `c9_ball_x_within_field`: one tick of the fresh 60 by 18
    game. -/
theorem c9_ball_x_within_field_witness :
    Reachable (GameState.new 60 18 1 1 ⟨true, 10, -15, 0⟩) ∧
    RandStream.Valid ⟨true, 10, -15, 0⟩ ∧
    (0 : ℚ) < 1 ∧
    (0 ≤ ((GameState.new 60 18 1 1 ⟨true, 10, -15, 0⟩).update [] 1
        ⟨true, 10, -15, 0⟩).ball.position.x ∧
      ((GameState.new 60 18 1 1 ⟨true, 10, -15, 0⟩).update [] 1
        ⟨true, 10, -15, 0⟩).ball.position.x ≤
        ((((GameState.new 60 18 1 1 ⟨true, 10, -15, 0⟩).update [] 1
          ⟨true, 10, -15, 0⟩).width : ℕ) : ℚ)) :=
  ⟨Reachable.init 60 18 1 1 ⟨true, 10, -15, 0⟩ (of_decide_eq_true (by with_unfolding_all rfl)),
   of_decide_eq_true (by with_unfolding_all rfl),
   of_decide_eq_true (by with_unfolding_all rfl),
   c9_ball_x_within_field (GameState.new 60 18 1 1 ⟨true, 10, -15, 0⟩) [] 1 ⟨true, 10, -15, 0⟩
     (Reachable.init 60 18 1 1 ⟨true, 10, -15, 0⟩ (of_decide_eq_true (by with_unfolding_all rfl)))
     (of_decide_eq_true (by with_unfolding_all rfl))
     (of_decide_eq_true (by with_unfolding_all rfl))⟩

/- ----------------------------------------------------------------------
   C8: the unguarded division at vx = 0, in the IEEE model.
   ---------------------------------------------------------------------- -/

theorem EF.add_nan_right (a : EF) : EF.add a EF.nan = EF.nan := by
  cases a <;> rfl

theorem EF.le_nan_right (a : EF) : EF.le a EF.nan = false := by
  cases a <;> rfl

theorem EF.zero_mul_div_zero (a : EF) :
    EF.mul (EF.num 0) (EF.div a (EF.num 0)) = EF.nan := by
  cases a <;> simp [EF.div, EF.mul] <;> split_ifs <;> simp [EF.mul]

theorem EF.le_zero_zero : EF.le (EF.num 0) (EF.num 0) = true := by
  simp [EF.le]

theorem EFBall.wall_update_eq (b : EFBall) (max_height dt : ℚ) :
    b.update_if_collision_with_wall max_height dt =
      ⟨b.position,
        ⟨b.velocity.vx,
          if (EF.le (b.calc_next_position dt).y (EF.num 0) ||
              EF.le (EF.num max_height) (b.calc_next_position dt).y) = true then
            EF.neg b.velocity.vy
          else b.velocity.vy⟩⟩ := by
  unfold EFBall.update_if_collision_with_wall
  split
  case isTrue h => simp only [if_pos h]
  case isFalse h => simp only [if_neg h]

/-- With a zero horizontal velocity, the x coordinate of the computed
    collision point is always NaN: `collision_r` is an infinity or NaN,
    `0 * collision_r` is NaN, and adding NaN keeps NaN. -/
theorem EFBall.collision_point_x_nan (pos : EFPosition) (vy : EF) (player : EFPlayer) :
    (EFBall.calculate_collision_point_with_player ⟨pos, ⟨EF.num 0, vy⟩⟩ player).x = EF.nan := by
  unfold EFBall.calculate_collision_point_with_player
  dsimp only
  rw [EF.zero_mul_div_zero, EF.add_nan_right]

theorem EFBall.hit1_no_flip (pos : EFPosition) (vy : EF) (player1 : EFPlayer) (dt : ℚ) :
    EFBall.update_if_collision_with_player1 ⟨pos, ⟨EF.num 0, vy⟩⟩ player1 dt =
      ⟨pos, ⟨EF.num 0, vy⟩⟩ := by
  unfold EFBall.update_if_collision_with_player1
  dsimp only
  rw [EFBall.collision_point_x_nan, EF.le_nan_right]
  simp

theorem EFBall.hit2_no_flip (pos : EFPosition) (vy : EF) (player2 : EFPlayer) (dt : ℚ) :
    EFBall.update_if_collision_with_player2 ⟨pos, ⟨EF.num 0, vy⟩⟩ player2 dt =
      ⟨pos, ⟨EF.num 0, vy⟩⟩ := by
  unfold EFBall.update_if_collision_with_player2
  dsimp only
  rw [EFBall.collision_point_x_nan]
  simp [EF.le]

/-- C8: for every ball state whose horizontal velocity is exactly zero,
    in the IEEE model of `Ball::update_position` the unguarded division
    produces a NaN collision point x for either paddle, the comparisons
    against the predicted next position therefore fail, neither paddle
    check flips the velocity, and the horizontal velocity after the call
    is still exactly zero (the unconditional escalation multiplies it by
    1.003, leaving zero). -/
theorem c8_zero_vx_never_flips (pos : EFPosition) (vy : EF) (player1 player2 : EFPlayer)
    (max_height dt : ℚ) :
    (EFBall.calculate_collision_point_with_player ⟨pos, ⟨EF.num 0, vy⟩⟩ player1).x = EF.nan ∧
    (EFBall.calculate_collision_point_with_player ⟨pos, ⟨EF.num 0, vy⟩⟩ player2).x = EF.nan ∧
    EFBall.update_if_collision_with_player1 ⟨pos, ⟨EF.num 0, vy⟩⟩ player1 dt =
      ⟨pos, ⟨EF.num 0, vy⟩⟩ ∧
    EFBall.update_if_collision_with_player2 ⟨pos, ⟨EF.num 0, vy⟩⟩ player2 dt =
      ⟨pos, ⟨EF.num 0, vy⟩⟩ ∧
    (EFBall.update_position ⟨pos, ⟨EF.num 0, vy⟩⟩ max_height player1 player2 dt).velocity.vx =
      EF.num 0 := by
  refine ⟨EFBall.collision_point_x_nan pos vy player1,
    EFBall.collision_point_x_nan pos vy player2,
    EFBall.hit1_no_flip pos vy player1 dt,
    EFBall.hit2_no_flip pos vy player2 dt, ?_⟩
  unfold EFBall.update_position
  dsimp only
  rw [EFBall.wall_update_eq]
  dsimp only
  simp only [EF.le_zero_zero, eq_self_iff_true, if_true]
  rw [EFBall.hit1_no_flip]
  show EF.mul (EF.num 0) (EF.num VELOCITY_INCREASE) = EF.num 0
  simp [EF.mul]

end CliPong
